import Mathlib

/-!
Verification of the movie-recommender application (`app.py`).

The embedding models:
* the movie table as a list of records with `title` and `id` fields
  (row position is the join key to the similarity matrix);
* the similarity matrix as a list of rows of rational scores (the code
  only ever compares scores, never does arithmetic on them, so `ℚ`
  faithfully represents the comparisons the program performs);
* Python's `sorted(..., reverse=True, key=lambda x: x[1])` as a stable
  descending insertion sort on `(index, score)` pairs;
* `recommend`'s `try/except` as explicit fallbacks to `([], [])` on the
  out-of-range accesses that would raise in Python;
* `fetch_poster`'s HTTP interaction as an explicit outcome datatype;
* `load_data` plus `main`'s schema checks as a startup function over
  artifact states (missing / corrupt / loaded).
-/

/-- One row of the movie table: the `title` and `id` columns used by the
lookup (other descriptive columns are unused by the code under study). -/
structure Movie where
  title : String
  id : Int
deriving DecidableEq, Repr

instance : Inhabited Movie := ⟨⟨"", 0⟩⟩

/-- Index of the first row whose title equals the queried title exactly
(`movies_df[movies_df['title'] == movie]` followed by `.index[0]`). -/
def movieIndex (movie : String) : List Movie → Option Nat
  | [] => none
  | m :: ms => if m.title == movie then some 0 else (movieIndex movie ms).map (· + 1)

/-- Insert a pair into a list sorted by score descending, after every
element of score `≥` its own: the placement CPython's stable sort gives
the element relative to elements that preceded it. -/
def insertDesc (x : Nat × ℚ) : List (Nat × ℚ) → List (Nat × ℚ)
  | [] => [x]
  | y :: ys => if y.2 ≤ x.2 then x :: y :: ys else y :: insertDesc x ys

/-- Stable sort by score descending: the semantics of
`sorted(..., reverse=True, key=lambda x: x[1])`. -/
def sortDesc : List (Nat × ℚ) → List (Nat × ℚ)
  | [] => []
  | x :: xs => insertDesc x (sortDesc xs)

/-- The sequence `distances` of line 63:
`sorted(list(enumerate(similarity_matrix[index])), reverse=True, key=lambda x: x[1])`. -/
def distancesOf (row : List ℚ) : List (Nat × ℚ) := sortDesc row.enum

/-- `recommend(movie, movies_df, similarity_matrix)` (lines 53–81).
`fp` abstracts `fetch_poster` together with the network environment.
The `try/except` wrapper turns the two accesses that can raise —
`similarity_matrix[index]` and `movies_df.iloc[i[0]]` — into the
`([], [])` fallback. -/
def recommend (movie : String) (movies_df : List Movie)
    (similarity_matrix : List (List ℚ)) (fp : Int → String) :
    List String × List String :=
  match movieIndex movie movies_df with
  | none => ([], [])
  | some index =>
    match similarity_matrix.get? index with
    | none => ([], [])
    | some row =>
      let picks := ((distancesOf row).drop 1).take 5
      if picks.all (fun p => decide (p.1 < movies_df.length)) then
        (picks.map (fun p => (movies_df.getD p.1 default).title),
         picks.map (fun p => fp (movies_df.getD p.1 default).id))
      else ([], [])

/-- Placeholder URL for a missing/NaN/zero id and for a response without a
usable poster path (lines 32 and 44). -/
def phNoPoster : String := "https://via.placeholder.com/500x750/cccccc/666666?text=No+Poster"

/-- Placeholder URL returned on a request timeout (line 47). -/
def phTimeout : String := "https://via.placeholder.com/500x750/ffcccc/cc0000?text=Timeout"

/-- Placeholder URL returned on a network error (line 49). -/
def phError : String := "https://via.placeholder.com/500x750/ffcccc/cc0000?text=Error"

/-- Placeholder URL returned on any other exception, e.g. malformed JSON
(line 51). -/
def phNoImage : String := "https://via.placeholder.com/500x750/cccccc/666666?text=No+Image"

/-- The fixed image-host base the poster path is appended to (line 41). -/
def posterBase : String := "https://image.tmdb.org/t/p/w500"

/-- Body of a 200 response: either JSON that fails to parse (so
`response.json()` raises) or parsed JSON with an optional, possibly empty,
`poster_path` field. -/
inductive JsonBody where
  | malformed
  | fields (posterPath : Option String)
deriving DecidableEq

/-- Outcome of the `requests.get` call: the exception classes the code
catches, or a response with a status code and a body. -/
inductive HttpOutcome where
  | timeout
  | requestError
  | otherException
  | response (status : Nat) (body : JsonBody)
deriving DecidableEq

/-- `fetch_poster(movie_id)` (lines 29–51). `movie_id = none` models a NaN
identifier (`pd.isna`); the HTTP interaction is made explicit as the
`outcome` argument. -/
def fetch_poster (movie_id : Option Int) (outcome : HttpOutcome) : String :=
  match movie_id with
  | none => phNoPoster
  | some mid =>
    if mid = 0 then phNoPoster
    else
      match outcome with
      | .timeout => phTimeout
      | .requestError => phError
      | .otherException => phNoImage
      | .response status body =>
        if status = 200 then
          match body with
          | .malformed => phNoImage
          | .fields posterPath =>
            match posterPath with
            | some p => if p = "" then phNoPoster else posterBase ++ p
            | none => phNoPoster
        else phNoPoster

/-- State of one pickled artifact on storage: absent
(`FileNotFoundError`), present but failing to unpickle (any other
exception), or successfully loaded. -/
inductive Artifact (α : Type) where
  | missing
  | corrupt
  | ok (val : α)
deriving DecidableEq

/-- The unpickled movie table before `main`'s schema checks: its column
names and its rows. -/
structure RawMovies where
  cols : List String
  rows : List Movie
deriving DecidableEq

/-- The two ways startup halts: `st.stop()` from `load_data`'s except
branches (lines 22–27), and `main`'s early return on a missing required
column (lines 96–103). -/
inductive StartupError where
  | dataUnavailable
  | invalidFormat
deriving DecidableEq

/-- `load_data()` (lines 15–27): both pickles must load; `FileNotFoundError`
and every other exception end in `st.error` + `st.stop()`. -/
def load_data (movieArt : Artifact RawMovies) (simArt : Artifact (List (List ℚ))) :
    Except StartupError (RawMovies × List (List ℚ)) :=
  match movieArt, simArt with
  | .ok movies, .ok similarity => Except.ok (movies, similarity)
  | _, _ => Except.error StartupError.dataUnavailable

/-- The startup sequence of `main` (lines 88–103): `load_data` followed by
the checks that the `title` and `id` columns exist. -/
def startup (movieArt : Artifact RawMovies) (simArt : Artifact (List (List ℚ))) :
    Except StartupError (RawMovies × List (List ℚ)) :=
  match load_data movieArt simArt with
  | Except.error e => Except.error e
  | Except.ok (movies, similarity) =>
    if "title" ∈ movies.cols then
      if "id" ∈ movies.cols then Except.ok (movies, similarity)
      else Except.error StartupError.invalidFormat
    else Except.error StartupError.invalidFormat

/-- Modelled from the spec: the `st.cache_data` memoization wrapper around
`load_data` ("Must be loaded at most once per process; repeated calls
return the cached result without re-reading storage") — the wrapper itself
is framework library code, not part of this repository. The `Bool`
component records whether the call read storage. -/
def cachedLoadData (cache : Option (RawMovies × List (List ℚ)))
    (movieArt : Artifact RawMovies) (simArt : Artifact (List (List ℚ))) :
    Except StartupError (RawMovies × List (List ℚ)) ×
      Option (RawMovies × List (List ℚ)) × Bool :=
  match cache with
  | some r => (Except.ok r, some r, false)
  | none =>
    match load_data movieArt simArt with
    | Except.ok r => (Except.ok r, some r, true)
    | Except.error e => (Except.error e, none, true)

/-- The loaded data as the running app holds it. -/
structure AppData where
  movies : List Movie
  similarity : List (List ℚ)

/-- Reading the movie table out of the loaded data. -/
def readMovies (s : AppData) : List Movie × AppData := (s.movies, s)

/-- Reading the similarity matrix out of the loaded data. -/
def readSimilarity (s : AppData) : List (List ℚ) × AppData := (s.similarity, s)

/-- `recommend` as `main` invokes it at line 125, threaded through the
loaded data state: the function only reads `movies` and `similarity`
(no statement in lines 53–81 assigns to them or to `st.session_state`),
so the state passes through every step unchanged. -/
def recommendApp (movie : String) (fp : Int → String) (s : AppData) :
    (List String × List String) × AppData :=
  let (movies_df, s1) := readMovies s
  let (similarity_matrix, s2) := readSimilarity s1
  (recommend movie movies_df similarity_matrix fp, s2)

/-- The three-movie table of the spec's concrete scenario. -/
def tableABC : List Movie := [⟨"A", 1⟩, ⟨"B", 2⟩, ⟨"C", 3⟩]

/-- A similarity matrix for `tableABC` whose row for "A" is
[1.0, 0.9, 0.1]. -/
def matrixABC : List (List ℚ) :=
  [[1, mkRat 9 10, mkRat 1 10],
   [mkRat 9 10, 1, mkRat 2 10],
   [mkRat 1 10, mkRat 2 10, 1]]

/-- A two-movie table with distinct titles. -/
def tableAB : List Movie := [⟨"A", 1⟩, ⟨"B", 2⟩]

/-- A constant-1 similarity matrix for `tableAB`: every diagonal entry is
a (non-strict) maximum of its row. -/
def matrixOnes : List (List ℚ) := [[1, 1], [1, 1]]

/-- A raw movie table with both required columns and two rows. -/
def rawAB : RawMovies := ⟨["title", "id"], tableAB⟩

/-- A one-by-one similarity matrix: dimension mismatch with `rawAB`. -/
def matrixOne : List (List ℚ) := [[1]]

/-- Inserting into a list is a permutation of consing. -/
theorem insertDesc_perm (x : Nat × ℚ) (l : List (Nat × ℚ)) :
    (insertDesc x l).Perm (x :: l) := by
  induction l with
  | nil => rfl
  | cons y ys ih =>
    by_cases h : y.2 ≤ x.2
    · simp [insertDesc, h]
    · rw [insertDesc, if_neg h]
      exact (ih.cons y).trans (List.Perm.swap x y ys)

/-- The stable descending sort permutes its input. -/
theorem sortDesc_perm (l : List (Nat × ℚ)) : (sortDesc l).Perm l := by
  induction l with
  | nil => rfl
  | cons x xs ih => exact (insertDesc_perm x (sortDesc xs)).trans (ih.cons x)

/-- Inserting preserves the descending order of scores. -/
theorem insertDesc_pairwise {x : Nat × ℚ} {l : List (Nat × ℚ)}
    (hl : List.Pairwise (fun a b => b.2 ≤ a.2) l) :
    List.Pairwise (fun a b => b.2 ≤ a.2) (insertDesc x l) := by
  induction l with
  | nil => simp [insertDesc]
  | cons y ys ih =>
    rcases List.pairwise_cons.mp hl with ⟨hy, hys⟩
    by_cases h : y.2 ≤ x.2
    · rw [insertDesc, if_pos h]
      refine List.pairwise_cons.mpr ⟨?_, hl⟩
      intro z hz
      rcases List.mem_cons.mp hz with rfl | hz
      · exact h
      · exact (hy z hz).trans h
    · rw [insertDesc, if_neg h]
      refine List.pairwise_cons.mpr ⟨?_, ih hys⟩
      intro z hz
      rcases List.mem_cons.mp ((insertDesc_perm x ys).mem_iff.mp hz) with rfl | hz
      · exact le_of_lt (lt_of_not_le h)
      · exact hy z hz

/-- The sorted sequence is ordered by score descending. -/
theorem sortDesc_pairwise (l : List (Nat × ℚ)) :
    List.Pairwise (fun a b => b.2 ≤ a.2) (sortDesc l) := by
  induction l with
  | nil => exact List.Pairwise.nil
  | cons x xs ih => exact insertDesc_pairwise ih

/-- Stability of the insertion step: an element whose index precedes every
index in the list ends up before every element of equal score. -/
theorem insertDesc_stable {x : Nat × ℚ} {l : List (Nat × ℚ)}
    (hl : List.Pairwise (fun a b => a.2 = b.2 → a.1 < b.1) l)
    (hx : ∀ y ∈ l, x.1 < y.1) :
    List.Pairwise (fun a b => a.2 = b.2 → a.1 < b.1) (insertDesc x l) := by
  induction l with
  | nil => simp [insertDesc]
  | cons y ys ih =>
    rcases List.pairwise_cons.mp hl with ⟨hy, hys⟩
    by_cases h : y.2 ≤ x.2
    · rw [insertDesc, if_pos h]
      refine List.pairwise_cons.mpr ⟨?_, hl⟩
      intro z hz _
      exact hx z hz
    · rw [insertDesc, if_neg h]
      refine List.pairwise_cons.mpr
        ⟨?_, ih hys (fun z hz => hx z (List.mem_cons_of_mem y hz))⟩
      intro z hz heq
      rcases List.mem_cons.mp ((insertDesc_perm x ys).mem_iff.mp hz) with rfl | hz
      · exact absurd heq.le h
      · exact hy z hz heq

/-- Stability of the sort: elements of equal score keep their original
relative order, expressed through their strictly increasing indices. -/
theorem sortDesc_stable {l : List (Nat × ℚ)}
    (h : List.Pairwise (fun a b => a.1 < b.1) l) :
    List.Pairwise (fun a b => a.2 = b.2 → a.1 < b.1) (sortDesc l) := by
  induction l with
  | nil => exact List.Pairwise.nil
  | cons x xs ih =>
    rcases List.pairwise_cons.mp h with ⟨hx, hxs⟩
    exact insertDesc_stable (ih hxs)
      (fun y hy => hx y ((sortDesc_perm xs).mem_iff.mp hy))

/-- The indices of an enumerated row are strictly increasing. -/
theorem enum_pairwise (l : List ℚ) :
    List.Pairwise (fun a b : Nat × ℚ => a.1 < b.1) l.enum := by
  rw [List.pairwise_iff_getElem]
  intro i j hi hj hij
  simp only [List.getElem_enum]
  exact hij

/-- When one element strictly dominates every other, it is the head of the
sorted sequence, so nothing after position 0 equals it. -/
theorem sortDesc_drop_one_ne {l : List (Nat × ℚ)} {x : Nat × ℚ}
    (hnd : List.Pairwise (fun a b => a.1 < b.1) l) (hx : x ∈ l)
    (hmax : ∀ z ∈ l, z ≠ x → z.2 < x.2) :
    ∀ z ∈ (sortDesc l).drop 1, z ≠ x := by
  have hnodup : l.Nodup :=
    hnd.imp (fun {a b} hab heq => absurd (heq ▸ hab) (lt_irrefl _))
  cases e : sortDesc l with
  | nil => intro z hz; rw [List.drop_nil] at hz; cases hz
  | cons hd tl =>
    have hperm : (hd :: tl).Perm l := e ▸ sortDesc_perm l
    have hsorted : List.Pairwise (fun a b : Nat × ℚ => b.2 ≤ a.2) (hd :: tl) :=
      e ▸ sortDesc_pairwise l
    have hnodup' : (hd :: tl).Nodup := (hperm.nodup_iff).mpr hnodup
    rcases List.mem_cons.mp (hperm.mem_iff.mpr hx) with hxhd | hxtl
    · intro z hz hzx
      rw [List.drop_one, List.tail_cons] at hz
      apply (List.nodup_cons.mp hnodup').1
      rw [← hxhd, ← hzx]
      exact hz
    · exfalso
      by_cases hhd : hd = x
      · exact (List.nodup_cons.mp hnodup').1 (hhd ▸ hxtl)
      · have h1 : hd.2 < x.2 :=
          hmax hd (hperm.mem_iff.mp (List.mem_cons_self hd tl)) hhd
        have h2 : x.2 ≤ hd.2 := (List.pairwise_cons.mp hsorted).1 x hxtl
        exact absurd (h2.trans_lt h1) (lt_irrefl _)

/-- First-match semantics of the title lookup: the returned index is in
range, its row's title is the queried one, and every earlier row's title
differs. -/
theorem movieIndex_spec {movie : String} {l : List Movie} {i : Nat}
    (h : movieIndex movie l = some i) :
    i < l.length ∧ (l.getD i default).title = movie ∧
      ∀ j < i, (l.getD j default).title ≠ movie := by
  induction l generalizing i with
  | nil => cases h
  | cons m ms ih =>
    rw [movieIndex] at h
    by_cases hm : m.title == movie
    · rw [if_pos hm] at h
      cases h
      refine ⟨Nat.succ_pos _, eq_of_beq hm, ?_⟩
      intro j hj
      cases hj
    · rw [if_neg hm] at h
      rcases Option.map_eq_some'.mp h with ⟨i', hi', rfl⟩
      rcases ih hi' with ⟨hlen, htitle, hbefore⟩
      refine ⟨Nat.succ_lt_succ hlen, htitle, ?_⟩
      intro j hj
      cases j with
      | zero =>
        simpa [List.getD] using fun hcontra => hm (beq_iff_eq.mpr hcontra)
      | succ j' =>
        rw [List.getD_cons_succ]
        exact hbefore j' (Nat.lt_of_succ_lt_succ hj)

/-- A title matching no row yields no index. -/
theorem movieIndex_eq_none {movie : String} {l : List Movie}
    (h : ∀ m ∈ l, m.title ≠ movie) : movieIndex movie l = none := by
  induction l with
  | nil => rfl
  | cons m ms ih =>
    have hm : ¬(m.title == movie) = true := by
      simp only [beq_iff_eq]
      exact h m (List.mem_cons_self m ms)
    rw [movieIndex, if_neg hm, ih (fun x hx => h x (List.mem_cons_of_mem m hx))]
    rfl

/-- Claim C1: on the table [("A",1),("B",2),("C",3)] with similarity row
[1.0, 0.9, 0.1] for "A", `recommend "A"` returns the entries for movie "B"
and then movie "C", in that order: their titles, each paired with the
poster fetched for its id (2, then 3). -/
theorem recommend_scenario_ABC (fp : Int → String) :
    recommend "A" tableABC matrixABC fp = (["B", "C"], [fp 2, fp 3]) := rfl

/-- Claim C4: the distances sequence built from a similarity row is a
permutation of the enumerated row, ordered by score descending, with any
two entries of equal score kept in their original row order. -/
theorem distances_sorted_stable (row : List ℚ) :
    (distancesOf row).Perm row.enum ∧
      List.Pairwise (fun a b => b.2 < a.2 ∨ (a.2 = b.2 ∧ a.1 < b.1))
        (distancesOf row) := by
  refine ⟨sortDesc_perm _, ?_⟩
  refine ((sortDesc_pairwise row.enum).and (sortDesc_stable (enum_pairwise row))).imp ?_
  intro a b hab
  rcases lt_or_eq_of_le hab.1 with hlt | heq
  · exact Or.inl hlt
  · exact Or.inr ⟨heq.symm, hab.2 heq.symm⟩

/-- Claim C5: a title matching no row (exactly, case-sensitively) yields
the empty result rather than an error, and when rows share the queried
title the first matching row is the one used: the selected index bears the
queried title and every earlier row does not. -/
theorem recommend_absent_and_first_match (movie : String) (movies_df : List Movie)
    (matrix : List (List ℚ)) (fp : Int → String) :
    ((∀ m ∈ movies_df, m.title ≠ movie) →
        recommend movie movies_df matrix fp = ([], [])) ∧
      ∀ i, movieIndex movie movies_df = some i →
        i < movies_df.length ∧ (movies_df.getD i default).title = movie ∧
          ∀ j < i, (movies_df.getD j default).title ≠ movie := by
  constructor
  · intro h
    simp [recommend, movieIndex_eq_none h]
  · intro i hi
    exact movieIndex_spec hi

/-- Claim C5 witness: the spec scenario `recommend("Z")` on the concrete
table returns the empty result. -/
theorem recommend_absent_and_first_match_witness :
    recommend "Z" tableABC matrixABC (fun _ => "p") = ([], []) :=
  (recommend_absent_and_first_match "Z" tableABC matrixABC (fun _ => "p")).1
    (by decide)

/-- Claim C7: `fetch_poster` is a total function of the id and the external
outcome: on a 200 response with a non-empty poster path (and a usable id)
it returns the image-host base concatenated with the path, and in every
other case — missing/NaN/zero id, timeout, network error, other exception,
non-200 status, malformed JSON, missing or empty poster field — one of the
four fixed placeholder URLs. -/
theorem fetch_poster_total (movie_id : Option Int) (outcome : HttpOutcome) :
    (∃ mid p, movie_id = some mid ∧ mid ≠ 0 ∧
        outcome = HttpOutcome.response 200 (JsonBody.fields (some p)) ∧ p ≠ "" ∧
        fetch_poster movie_id outcome = posterBase ++ p) ∨
      fetch_poster movie_id outcome ∈ [phNoPoster, phTimeout, phError, phNoImage] := by
  cases movie_id with
  | none => right; simp [fetch_poster]
  | some mid =>
    by_cases h0 : mid = 0
    · right; simp [fetch_poster, h0]
    · cases outcome with
      | timeout => right; simp [fetch_poster, h0]
      | requestError => right; simp [fetch_poster, h0]
      | otherException => right; simp [fetch_poster, h0]
      | response status body =>
        by_cases hs : status = 200
        · cases body with
          | malformed => right; simp [fetch_poster, h0, hs]
          | fields posterPath =>
            cases posterPath with
            | none => right; simp [fetch_poster, h0, hs]
            | some p =>
              by_cases hp : p = ""
              · right; simp [fetch_poster, h0, hs, hp]
              · refine Or.inl ⟨mid, p, rfl, h0, by rw [hs], hp, ?_⟩
                simp [fetch_poster, h0, hs, hp]
        · right; simp [fetch_poster, h0, hs]

/-- Claim C8: with the memoizing wrapper, loading a well-formed pair of
artifacts twice returns the identical in-memory result on both calls, and
the second call does not read storage. -/
theorem cachedLoadData_once (movieArt : Artifact RawMovies)
    (simArt : Artifact (List (List ℚ))) (r : RawMovies × List (List ℚ))
    (h : load_data movieArt simArt = Except.ok r) :
    (cachedLoadData none movieArt simArt).1 = Except.ok r ∧
      (cachedLoadData (cachedLoadData none movieArt simArt).2.1 movieArt simArt).1 =
        Except.ok r ∧
      (cachedLoadData (cachedLoadData none movieArt simArt).2.1 movieArt simArt).2.2 =
        false := by
  simp [cachedLoadData, h]

/-- Claim C8 witness: the double load on a concrete well-formed pair. -/
theorem cachedLoadData_once_witness :
    (cachedLoadData none (Artifact.ok rawAB) (Artifact.ok matrixOnes)).1 =
        Except.ok (rawAB, matrixOnes) ∧
      (cachedLoadData (cachedLoadData none (Artifact.ok rawAB) (Artifact.ok matrixOnes)).2.1
            (Artifact.ok rawAB) (Artifact.ok matrixOnes)).1 =
        Except.ok (rawAB, matrixOnes) ∧
      (cachedLoadData (cachedLoadData none (Artifact.ok rawAB) (Artifact.ok matrixOnes)).2.1
            (Artifact.ok rawAB) (Artifact.ok matrixOnes)).2.2 = false :=
  cachedLoadData_once (Artifact.ok rawAB) (Artifact.ok matrixOnes) (rawAB, matrixOnes) rfl

/-- Claim C9: recommending reads but never writes the loaded data: the
state after `recommend` is exactly the state before, and the result is a
pure function of the loaded table and matrix. -/
theorem recommendApp_frame (movie : String) (fp : Int → String) (s : AppData) :
    (recommendApp movie fp s).2 = s ∧
      (recommendApp movie fp s).1 = recommend movie s.movies s.similarity fp :=
  ⟨rfl, rfl⟩

/-- Claim C3 counterexample: a similarity matrix whose dimension does not
match the movie table still loads successfully — startup reports no error
on a dimension mismatch, contrary to the claim. -/
theorem startup_dimension_mismatch_ok :
    rawAB.rows.length ≠ matrixOne.length ∧
      startup (Artifact.ok rawAB) (Artifact.ok matrixOne) =
        Except.ok (rawAB, matrixOne) :=
  ⟨by decide, rfl⟩

/-- Claim C3 (amended): startup returns the loaded pair exactly when both
artifacts load and the required `title` and `id` columns are present; it
fails on a missing or corrupt artifact and on a missing required column,
but a matrix dimension mismatch is not detected. -/
theorem startup_ok_iff (movieArt : Artifact RawMovies)
    (simArt : Artifact (List (List ℚ))) (movies : RawMovies)
    (similarity : List (List ℚ)) :
    startup movieArt simArt = Except.ok (movies, similarity) ↔
      movieArt = Artifact.ok movies ∧ simArt = Artifact.ok similarity ∧
        "title" ∈ movies.cols ∧ "id" ∈ movies.cols := by
  cases movieArt with
  | missing => simp [startup, load_data]
  | corrupt => simp [startup, load_data]
  | ok mv =>
    cases simArt with
    | missing => simp [startup, load_data]
    | corrupt => simp [startup, load_data]
    | ok sm =>
      simp only [startup, load_data]
      constructor
      · intro h
        by_cases ht : "title" ∈ mv.cols
        · by_cases hid : "id" ∈ mv.cols
          · rw [if_pos ht, if_pos hid] at h
            injection h with h'
            rw [Prod.mk.injEq] at h'
            exact ⟨by rw [h'.1], by rw [h'.2], h'.1 ▸ ht, h'.1 ▸ hid⟩
          · rw [if_pos ht, if_neg hid] at h
            cases h
        · rw [if_neg ht] at h
          cases h
      · rintro ⟨hmv, hsm, hc1, hc2⟩
        injection hmv with hmv
        injection hsm with hsm
        subst hmv
        subst hsm
        rw [if_pos hc1, if_pos hc2]

/-- Every picked entry comes from the enumerated similarity row. -/
theorem picks_mem_enum {row : List ℚ} {p : Nat × ℚ}
    (hp : p ∈ ((distancesOf row).drop 1).take 5) : p ∈ row.enum :=
  (sortDesc_perm row.enum).mem_iff.mp
    (List.drop_subset 1 _ (List.take_subset 5 _ hp))

/-- An element of the enumerated row carries an in-range index and that
index's score. -/
theorem enum_elem_spec {row : List ℚ} {p : Nat × ℚ} (hp : p ∈ row.enum) :
    p.1 < row.length ∧ p.2 = row.getD p.1 0 := by
  have h := List.mem_enum_iff_get?.mp hp
  have hlt : p.1 < row.length := by
    by_contra hge
    rw [List.get?_eq_none.mpr (Nat.le_of_not_lt hge)] at h
    cases h
  refine ⟨hlt, ?_⟩
  rw [List.get?_eq_get hlt] at h
  injection h with h
  rw [List.getD_eq_get _ _ hlt]
  exact h.symm

/-- Claim C2 counterexample: with unique titles and every diagonal entry a
(non-strict) maximum of its row — the claim's stated preconditions — the
queried title can still appear in the output: a tie at the maximum with an
earlier row puts that earlier row at rank 0, so the queried movie itself
survives the drop of the first entry. -/
theorem recommend_self_in_output :
    (∀ k < matrixOnes.length, ∀ j < (matrixOnes.getD k []).length,
        (matrixOnes.getD k []).getD j 0 ≤ (matrixOnes.getD k []).getD k 0) ∧
      List.Pairwise (fun a b : Movie => a.title ≠ b.title) tableAB ∧
      matrixOnes.length = tableAB.length ∧
      (∀ r ∈ matrixOnes, r.length = tableAB.length) ∧
      movieIndex "B" tableAB = some 1 ∧
      "B" ∈ (recommend "B" tableAB matrixOnes (fun _ => "p")).1 := by
  decide

/-- Claim C2 (amended): for a title present in the table, `recommend`
returns at most 5 entries; and when titles are unique, the matrix is
square with the table's dimension, and each diagonal entry is the strict
maximum of its row, none of the returned titles equals the queried one. -/
theorem recommend_five_and_no_self (movie : String) (movies_df : List Movie)
    (matrix : List (List ℚ)) (fp : Int → String) (i : Nat)
    (hi : movieIndex movie movies_df = some i) :
    (recommend movie movies_df matrix fp).1.length ≤ 5 ∧
      (List.Pairwise (fun a b : Movie => a.title ≠ b.title) movies_df →
        matrix.length = movies_df.length →
        (∀ r ∈ matrix, r.length = movies_df.length) →
        (∀ k < matrix.length, ∀ j < (matrix.getD k []).length, j ≠ k →
          (matrix.getD k []).getD j 0 < (matrix.getD k []).getD k 0) →
        ∀ t ∈ (recommend movie movies_df matrix fp).1, t ≠ movie) := by
  constructor
  · simp only [recommend, hi]
    split
    · simp
    · split
      · simp only [List.length_map, List.length_take]
        exact min_le_left _ _
      · simp
  · intro huniq hdim hsq hself
    obtain ⟨hilen, hititle, -⟩ := movieIndex_spec hi
    have himat : i < matrix.length := by rw [hdim]; exact hilen
    have hrow : matrix.get? i = some (matrix.getD i []) := by
      rw [List.get?_eq_get himat, List.getD_eq_get _ _ himat]
    set row := matrix.getD i [] with hrowdef
    have hrowmem : row ∈ matrix := List.get?_mem hrow
    have hrowlen : row.length = movies_df.length := hsq row hrowmem
    have hirow : i < row.length := by rw [hrowlen]; exact hilen
    simp only [recommend, hi, hrow]
    by_cases hg : (((distancesOf row).drop 1).take 5).all
        (fun p => decide (p.1 < movies_df.length)) = true
    · rw [if_pos hg]
      intro t ht
      simp only [List.mem_map] at ht
      obtain ⟨p, hp, rfl⟩ := ht
      have hpe : p ∈ row.enum := picks_mem_enum hp
      obtain ⟨hplt, hpval⟩ := enum_elem_spec hpe
      have hxmem : (i, row.getD i 0) ∈ row.enum := by
        rw [List.mem_enum_iff_get?, List.get?_eq_get hirow, List.getD_eq_get _ _ hirow]
      have hmax : ∀ z ∈ row.enum, z ≠ (i, row.getD i 0) →
          z.2 < (i, row.getD i 0).2 := by
        intro z hz hne
        obtain ⟨hzlt, hzval⟩ := enum_elem_spec hz
        by_cases hzi : z.1 = i
        · exact absurd (Prod.ext_iff.mpr ⟨hzi, by rw [hzval, hzi]⟩) hne
        · have hlt := hself i himat z.1 hzlt hzi
          rw [hzval]
          exact hlt
      have hdrop := sortDesc_drop_one_ne (enum_pairwise row) hxmem hmax
      have hpne : p ≠ (i, row.getD i 0) := hdrop p (List.take_subset 5 _ hp)
      have hpi : p.1 ≠ i := by
        intro hpi
        exact hpne (Prod.ext_iff.mpr ⟨hpi, by rw [hpval, hpi]⟩)
      have hplt' : p.1 < movies_df.length := by rw [← hrowlen]; exact hplt
      have hget := List.pairwise_iff_getElem.mp huniq
      rw [List.getD_eq_getElem movies_df default hplt']
      rw [List.getD_eq_getElem movies_df default hilen] at hititle
      intro hcontra
      rcases Nat.lt_or_ge p.1 i with hlti | hgei
      · exact hget p.1 i hplt' hilen hlti (by rw [hcontra, hititle])
      · have hlti' : i < p.1 := Nat.lt_of_le_of_ne hgei (fun h => hpi h.symm)
        exact hget i p.1 hilen hplt' hlti' (by rw [hcontra, hititle])
    · rw [if_neg hg]
      exact fun t ht => absurd ht (List.not_mem_nil t)

/-- Claim C6: with a square similarity matrix matching the table, a table
of fewer than 6 rows yields exactly rows − 1 recommendations for a present
title, and 0 recommendations for an absent one. -/
theorem recommend_small_table_length (movie : String) (movies_df : List Movie)
    (matrix : List (List ℚ)) (fp : Int → String)
    (hsmall : movies_df.length < 6)
    (hdim : matrix.length = movies_df.length)
    (hsq : ∀ r ∈ matrix, r.length = movies_df.length) :
    (∀ i, movieIndex movie movies_df = some i →
        (recommend movie movies_df matrix fp).1.length = movies_df.length - 1) ∧
      (movieIndex movie movies_df = none →
        (recommend movie movies_df matrix fp).1.length = 0) := by
  constructor
  · intro i hi
    obtain ⟨hilen, -, -⟩ := movieIndex_spec hi
    have himat : i < matrix.length := by rw [hdim]; exact hilen
    have hrow : matrix.get? i = some (matrix.getD i []) := by
      rw [List.get?_eq_get himat, List.getD_eq_get _ _ himat]
    set row := matrix.getD i [] with hrowdef
    have hrowlen : row.length = movies_df.length := hsq row (List.get?_mem hrow)
    have hg : (((distancesOf row).drop 1).take 5).all
        (fun p => decide (p.1 < movies_df.length)) = true := by
      rw [List.all_eq_true]
      intro p hp
      obtain ⟨hplt, -⟩ := enum_elem_spec (picks_mem_enum hp)
      exact decide_eq_true (by rw [← hrowlen]; exact hplt)
    simp only [recommend, hi, hrow]
    rw [if_pos hg]
    have hdlen : (distancesOf row).length = movies_df.length := by
      rw [distancesOf, (sortDesc_perm row.enum).length_eq, List.enum_length, hrowlen]
    simp only [List.length_map, List.length_take, List.length_drop, hdlen]
    omega
  · intro h
    simp [recommend, h]

/-- Claim C6 witness: the three-movie table returns exactly two
recommendations for a present title. -/
theorem recommend_small_table_length_witness :
    (recommend "A" tableABC matrixABC (fun _ => "p")).1.length = 3 - 1 :=
  (recommend_small_table_length "A" tableABC matrixABC (fun _ => "p")
      (by decide) (by decide) (by decide)).1 0 (by decide)

/-- Claim C10: `recommend` is total in the embedding, and the paths where
the Python code would raise — the queried row index outside the similarity
matrix, or a sorted entry's row index outside the movie table — produce
the empty result pair. -/
theorem recommend_exception_empty (movie : String) (movies_df : List Movie)
    (matrix : List (List ℚ)) (fp : Int → String) :
    (∀ i, movieIndex movie movies_df = some i → matrix.length ≤ i →
        recommend movie movies_df matrix fp = ([], [])) ∧
      (∀ i row, movieIndex movie movies_df = some i → matrix.get? i = some row →
        ¬ (∀ p ∈ ((distancesOf row).drop 1).take 5, p.1 < movies_df.length) →
        recommend movie movies_df matrix fp = ([], [])) := by
  constructor
  · intro i hi hlen
    have hnone : matrix.get? i = none := List.get?_eq_none.mpr hlen
    simp only [recommend, hi, hnone]
  · intro i row hi hrow hbad
    have hg : ¬ (((distancesOf row).drop 1).take 5).all
        (fun p => decide (p.1 < movies_df.length)) = true := by
      rw [List.all_eq_true]
      intro hall
      exact hbad (fun p hp => of_decide_eq_true (hall p hp))
    simp only [recommend, hi, hrow]
    rw [if_neg hg]

/-- Claim C10 witness: a matrix with fewer rows than the table (the first
exception path) yields the empty pair. -/
theorem recommend_exception_empty_witness :
    recommend "B" tableAB matrixOne (fun _ => "p") = ([], []) :=
  (recommend_exception_empty "B" tableAB matrixOne (fun _ => "p")).1 1
    (by decide) (by decide)

/-- Claim C2 witness: the concrete three-movie table with a strictly
self-maximal similarity matrix. -/
theorem recommend_five_and_no_self_witness :
    (recommend "A" tableABC matrixABC (fun _ => "p")).1.length ≤ 5 ∧
      ∀ t ∈ (recommend "A" tableABC matrixABC (fun _ => "p")).1, t ≠ "A" := by
  obtain ⟨h1, h2⟩ := recommend_five_and_no_self "A" tableABC matrixABC
    (fun _ => "p") 0 (by decide)
  exact ⟨h1, h2 (by decide) (by decide) (by decide) (by decide)⟩
